import Mathlib

/-!
Verification of the attention / cross-attention core of the `refiners`
repository.  Tensors are shallowly embedded as a logical shape together
with row-major flat data; the tensor-movement operations (`reshape`,
`transpose`, head split and merge, flatten and unflatten) are translated
from `src/refiners/fluxion/layers/attentions.py` and
`src/refiners/foundationals/latent_diffusion/cross_attention.py`.
The generic combinator layer (`Chain`, `Parallel`, `Distribute`, `Sum`)
and the per-pass context store are not part of the two source files and
are modelled from the specification, as marked in their doc comments.
Fatal `assert` failures and context misses are embedded as `Except Err`.
-/

/-- A dense tensor: a logical shape together with row-major flat data.
Only indices below the number of elements are meaningful; `data` is kept
total on `Nat` for convenience.  Rationals stand in for the opaque scalar
type of the external numeric library. -/
structure Tensor where
  shape : List Nat
  data : Nat → ℚ

/-- Product of a list of dimensions: the element count of a shape. -/
def listProd (l : List Nat) : Nat := l.foldr (fun a b => a * b) 1

theorem listProd_nil : listProd [] = 1 := rfl

theorem listProd_cons (a : Nat) (l : List Nat) : listProd (a :: l) = a * listProd l := rfl

/-- Dimension `i` of a tensor (Python `x.shape[i]`), defaulting to 0. -/
def Tensor.dim (t : Tensor) (i : Nat) : Nat := t.shape.getD i 0

/-- Last dimension of a tensor (Python `x.shape[-1]`). -/
def Tensor.lastDim (t : Tensor) : Nat := t.shape.getLastD 0

/-- Reshape: relabel the logical shape, keeping the row-major data in
order.  Every reshape in the source is applied to a (logically)
contiguous tensor and to a target shape of the same element count, where
this is exactly the semantics of the external reshape primitive. -/
def Tensor.reshape (t : Tensor) (s : List Nat) : Tensor := ⟨s, t.data⟩

/-- Transpose of axes 1 and 2, materialised in logical row-major order
(the source always follows a transpose either by a reshape, which copies
into logical order, or by the attention primitive, which consumes logical
values).  Only applied to tensors of rank at least 3 in the source; on
lower ranks we leave the tensor unchanged. -/
def Tensor.transpose12 (t : Tensor) : Tensor :=
  match t.shape with
  | d0 :: d1 :: d2 :: rest =>
      { shape := d0 :: d2 :: d1 :: rest
      , data := fun i =>
          t.data (i / (d2 * (d1 * listProd rest)) * (d1 * (d2 * listProd rest)) +
            (i % (d2 * (d1 * listProd rest)) % (d1 * listProd rest) / listProd rest *
              (d2 * listProd rest) +
              (i % (d2 * (d1 * listProd rest)) / (d1 * listProd rest) * listProd rest +
                i % (d2 * (d1 * listProd rest)) % (d1 * listProd rest) % listProd rest))) }
  | _ => t

theorem Tensor.ext_shape_data {t u : Tensor} (hs : t.shape = u.shape)
    (hd : ∀ i, t.data i = u.data i) : t = u := by
  cases t
  cases u
  simp only [Tensor.mk.injEq]
  exact ⟨hs, funext hd⟩

theorem index_bound {b o d n : Nat} (hb : b < d) (ho : o < n) : b * n + o < d * n := by
  calc b * n + o < b * n + n := by omega
    _ = (b + 1) * n := by ring
    _ ≤ d * n := Nat.mul_le_mul_right n hb

theorem split_div {a r K : Nat} (hr : r < K) : (a * K + r) / K = a := by
  have hK : 0 < K := by omega
  rw [Nat.mul_comm, Nat.mul_add_div hK, Nat.div_eq_of_lt hr, Nat.add_zero]

theorem split_mod {a r K : Nat} (hr : r < K) : (a * K + r) % K = r := by
  rw [Nat.mul_comm, Nat.mul_add_mod, Nat.mod_eq_of_lt hr]

theorem Tensor.transpose12_shape (t : Tensor) {d0 d1 d2 : Nat} {rest : List Nat}
    (h : t.shape = d0 :: d1 :: d2 :: rest) :
    t.transpose12.shape = d0 :: d2 :: d1 :: rest := by
  obtain ⟨sh, da⟩ := t
  simp only at h
  subst h
  rfl

/-- The defining pointwise property of `transpose12`: reading the
transposed tensor at logical position `(a, c, b, o)` (with respect to the
output shape `d0 :: d2 :: d1 :: rest`) reads the original at `(a, b, c, o)`. -/
theorem Tensor.transpose12_data_spec (t : Tensor) {d0 d1 d2 n : Nat} {rest : List Nat}
    (h : t.shape = d0 :: d1 :: d2 :: rest) (hn : listProd rest = n)
    {a b c o : Nat} (hb : b < d1) (hc : c < d2) (ho : o < n) :
    t.transpose12.data (a * (d2 * (d1 * n)) + (c * (d1 * n) + (b * n + o))) =
      t.data (a * (d1 * (d2 * n)) + (b * (d2 * n) + (c * n + o))) := by
  obtain ⟨sh, da⟩ := t
  simp only at h
  subst h
  have h1 : b * n + o < d1 * n := index_bound hb ho
  have h2 : c * (d1 * n) + (b * n + o) < d2 * (d1 * n) := index_bound hc h1
  show da _ = da _
  simp only [hn]
  rw [split_div h2, split_mod h2, split_div h1, split_mod h1, split_div ho, split_mod ho]

theorem unit2_index (i d1 n : Nat) :
    i / (d1 * n) * (d1 * n) +
      (i % (d1 * n) % (d1 * n) / n * n +
        (i % (d1 * n) / (d1 * n) * n + i % (d1 * n) % (d1 * n) % n)) = i := by
  have hmm : i % (d1 * n) % (d1 * n) = i % (d1 * n) := Nat.mod_mod_of_dvd _ dvd_rfl
  rw [hmm, Nat.mod_div_self, Nat.zero_mul, Nat.zero_add]
  have ha : i % (d1 * n) / n * n + i % (d1 * n) % n = i % (d1 * n) := Nat.div_add_mod' _ n
  have hb : i / (d1 * n) * (d1 * n) + i % (d1 * n) = i := Nat.div_add_mod' i _
  omega

theorem unit1_index (i d2 n : Nat) :
    i / (d2 * n) * (d2 * n) +
      (i % (d2 * n) % n / n * (d2 * n) +
        (i % (d2 * n) / n * n + i % (d2 * n) % n % n)) = i := by
  rw [Nat.mod_div_self, Nat.zero_mul, Nat.zero_add]
  have hmm : i % (d2 * n) % n % n = i % (d2 * n) % n := Nat.mod_mod_of_dvd _ dvd_rfl
  rw [hmm]
  have ha : i % (d2 * n) / n * n + i % (d2 * n) % n = i % (d2 * n) := Nat.div_add_mod' _ n
  have hb : i / (d2 * n) * (d2 * n) + i % (d2 * n) = i := Nat.div_add_mod' i _
  omega

/-- Transposing axes 1 and 2 when axis 2 has extent 1 moves no data:
the flat data is unchanged at every index. -/
theorem Tensor.transpose12_unit_dim2 (t : Tensor) {d0 d1 : Nat} {rest : List Nat}
    (h : t.shape = d0 :: d1 :: 1 :: rest) :
    ∀ i, t.transpose12.data i = t.data i := by
  obtain ⟨sh, da⟩ := t
  simp only at h
  subst h
  intro i
  show da _ = da i
  congr 1
  simp only [Nat.one_mul]
  exact unit2_index i d1 (listProd rest)

/-- Transposing axes 1 and 2 when axis 1 has extent 1 moves no data. -/
theorem Tensor.transpose12_unit_dim1 (t : Tensor) {d0 d2 : Nat} {rest : List Nat}
    (h : t.shape = d0 :: 1 :: d2 :: rest) :
    ∀ i, t.transpose12.data i = t.data i := by
  obtain ⟨sh, da⟩ := t
  simp only at h
  subst h
  intro i
  show da _ = da i
  congr 1
  simp only [Nat.one_mul]
  exact unit1_index i d2 (listProd rest)

/-- Fatal failures of the embedded code: Python `assert` errors (and other
shape-contract violations) and context-store misses. -/
inductive Err where
  | assertFail : Err
  | contextMiss : Err
deriving DecidableEq

/-- Configuration of `ScaledDotProductAttention` (source lines 22–25):
`__init__` stores `num_heads` and the optional causal default and performs
no validation whatsoever. -/
structure ScaledDotProductAttention where
  num_heads : Nat
  is_causal : Option Bool

/-- Source `ScaledDotProductAttention.__init__`: stores the two fields,
checks nothing. -/
def ScaledDotProductAttention.make (num_heads : Nat) (is_causal : Option Bool) :
    ScaledDotProductAttention :=
  ⟨num_heads, is_causal⟩

/-- Source `split_to_multi_head` (lines 45–54): asserts rank 3 and
divisibility of the embedding dimension by `num_heads`, then
`x.reshape(x.shape[0], x.shape[1], num_heads, x.shape[-1] // num_heads).transpose(1, 2)`. -/
def ScaledDotProductAttention.split_to_multi_head (num_heads : Nat) (x : Tensor) :
    Except Err Tensor :=
  if x.shape.length = 3 then
    if x.lastDim % num_heads = 0 then
      .ok ((x.reshape [x.dim 0, x.dim 1, num_heads, x.lastDim / num_heads]).transpose12)
    else .error .assertFail
  else .error .assertFail

/-- Source `merge_multi_head` (lines 56–59):
`x.transpose(1, 2).reshape(x.shape[0], x.shape[2], num_heads * x.shape[-1])`. -/
def ScaledDotProductAttention.merge_multi_head (num_heads : Nat) (x : Tensor) : Tensor :=
  x.transpose12.reshape [x.dim 0, x.dim 2, num_heads * x.lastDim]

theorem getLastD_triple (a b c d : Nat) : List.getLastD [a, b, c] d = c := rfl

/-- C1 —
For `E % H = 0` and a rank-3 tensor of shape `(B, S, E)`,
`merge_multi_head (split_to_multi_head x)` is defined (the split
assertions pass), has shape exactly `(B, S, E)`, and agrees with `x`
element for element at every logical position `(b, s, e)`. -/
theorem spec_C1 (B S E H : Nat) (hH : 0 < H) (hdvd : E % H = 0)
    (x : Tensor) (hx : x.shape = [B, S, E]) :
    ∃ y, ScaledDotProductAttention.split_to_multi_head H x = .ok y ∧
      (ScaledDotProductAttention.merge_multi_head H y).shape = [B, S, E] ∧
      ∀ b s e, b < B → s < S → e < E →
        (ScaledDotProductAttention.merge_multi_head H y).data (b * (S * E) + (s * E + e)) =
          x.data (b * (S * E) + (s * E + e)) := by
  have hdim0 : x.dim 0 = B := by simp [Tensor.dim, hx]
  have hdim1 : x.dim 1 = S := by simp [Tensor.dim, hx]
  have hlast : x.lastDim = E := by
    simp [Tensor.lastDim, hx, getLastD_triple]
  have hlen : x.shape.length = 3 := by simp [hx]
  set D := E / H with hD
  have hED : H * D = E := Nat.mul_div_cancel' (Nat.dvd_of_mod_eq_zero hdvd)
  have hsplit : ScaledDotProductAttention.split_to_multi_head H x =
      .ok ((x.reshape [B, S, H, D]).transpose12) := by
    rw [ScaledDotProductAttention.split_to_multi_head, if_pos hlen]
    rw [hlast, if_pos hdvd, hdim0, hdim1]
  set y := (x.reshape [B, S, H, D]).transpose12 with hy
  have hyshape : y.shape = [B, H, S, D] :=
    Tensor.transpose12_shape _ (by simp [Tensor.reshape])
  refine ⟨y, hsplit, ?_, ?_⟩
  · show (y.transpose12.reshape [y.dim 0, y.dim 2, H * y.lastDim]).shape = [B, S, E]
    have h0 : y.dim 0 = B := by simp [Tensor.dim, hyshape]
    have h2 : y.dim 2 = S := by simp [Tensor.dim, hyshape]
    have hl : y.lastDim = D := by simp [Tensor.lastDim, hyshape, getLastD_triple]
    simp [Tensor.reshape, h0, h2, hl, hED]
  · intro b s e hb hs he
    rcases Nat.eq_zero_or_pos D with hD0 | hD0
    · exfalso
      rw [hD0, Nat.mul_zero] at hED
      omega
    have hE0 : E = H * D := hED.symm
    set h := e / D with hh
    set d := e % D with hd
    have hhH : h < H := by
      rw [hh]
      exact (Nat.div_lt_iff_lt_mul hD0).mpr (by omega)
    have hdD : d < D := Nat.mod_lt _ hD0
    have hed : h * D + d = e := by
      rw [hh, hd]
      exact Nat.div_add_mod' e D
    show (y.transpose12.reshape [y.dim 0, y.dim 2, H * y.lastDim]).data _ = _
    have hreshape_data :
        (y.transpose12.reshape [y.dim 0, y.dim 2, H * y.lastDim]).data =
          y.transpose12.data := rfl
    rw [hreshape_data]
    have hidx : b * (S * E) + (s * E + e) =
        b * (S * (H * D)) + (s * (H * D) + (h * D + d)) := by
      rw [hed, ← hE0]
    rw [hidx]
    have step1 := @Tensor.transpose12_data_spec y B H S D [D] hyshape
      (by simp [listProd]) b h s d hhH hs hdD
    rw [step1]
    have hreshape_shape : (x.reshape [B, S, H, D]).shape = [B, S, H, D] := rfl
    have step2 := @Tensor.transpose12_data_spec (x.reshape [B, S, H, D]) B S H D [D]
      hreshape_shape (by simp [listProd]) b s h d hs hhH hdD
    rw [← hy] at step2
    rw [step2]
    have hidx2 : b * (S * (H * D)) + (s * (H * D) + (h * D + d)) =
        b * (S * E) + (s * E + e) := by
      rw [hed, hED]
    rw [hidx2]
    rfl

theorem split_to_multi_head_eq (H : Nat) (x : Tensor) {a b c : Nat}
    (hx : x.shape = [a, b, c]) (hdvd : c % H = 0) :
    ScaledDotProductAttention.split_to_multi_head H x =
      .ok ((x.reshape [a, b, H, c / H]).transpose12) := by
  have hdim0 : x.dim 0 = a := by simp [Tensor.dim, hx]
  have hdim1 : x.dim 1 = b := by simp [Tensor.dim, hx]
  have hlast : x.lastDim = c := by simp [Tensor.lastDim, hx, getLastD_triple]
  have hlen : x.shape.length = 3 := by rw [hx]; rfl
  simp only [ScaledDotProductAttention.split_to_multi_head]
  rw [if_pos hlen, hlast, if_pos hdvd, hdim0, hdim1]

/-- C1 witness at `B = 1`, `S = 2`, `E = 4`, `H = 2`. -/
theorem spec_C1_witness :
    ∃ y, ScaledDotProductAttention.split_to_multi_head 2
        ⟨[1, 2, 4], fun i => (i : ℚ)⟩ = .ok y ∧
      (ScaledDotProductAttention.merge_multi_head 2 y).shape = [1, 2, 4] ∧
      ∀ b s e, b < 1 → s < 2 → e < 4 →
        (ScaledDotProductAttention.merge_multi_head 2 y).data (b * (2 * 4) + (s * 4 + e)) =
          (⟨[1, 2, 4], fun i => (i : ℚ)⟩ : Tensor).data (b * (2 * 4) + (s * 4 + e)) :=
  spec_C1 1 2 4 2 (by decide) (by decide) ⟨[1, 2, 4], fun i => (i : ℚ)⟩ rfl

/-- Second-to-last dimension of a tensor (the sequence axis of an
attention input, Python `x.shape[-2]`). -/
def Tensor.seqDim (t : Tensor) : Nat := t.shape.getD (t.shape.length - 2) 0

/-- Signature of the opaque per-slice attention kernel: arguments are the
query sequence length, the key sequence length, the head dimension, the
flat data of query / key / value together with the base offset of the
current batch slice, the causal flag, and the offset of the requested
output element inside the slice. -/
def SdpaKernel : Type :=
  Nat → Nat → Nat → (Nat → ℚ) → Nat → (Nat → ℚ) → Nat → (Nat → ℚ) → Nat → Bool → Nat → ℚ

/-- Source `scaled_dot_product_attention` (lines 12–18), a direct wrapper
around the external fused primitive.  Modelled from the spec: the
primitive (§4.3) is delegated to the external numeric collaborator, so it
is embedded as an opaque per-slice kernel `K` applied independently to
every leading-batch slice of the inputs (the last two axes form the
`(sequence, head_dim)` matrix of a slice); the output has the query's
shape. -/
def scaled_dot_product_attention (K : SdpaKernel) (query key value : Tensor)
    (is_causal : Bool) : Tensor :=
  { shape := query.shape
  , data := fun i =>
      K query.seqDim key.seqDim query.lastDim
        query.data (i / (query.seqDim * query.lastDim) * (query.seqDim * query.lastDim))
        key.data (i / (query.seqDim * query.lastDim) * (key.seqDim * query.lastDim))
        value.data (i / (query.seqDim * query.lastDim) * (key.seqDim * query.lastDim))
        is_causal (i % (query.seqDim * query.lastDim)) }

/-- Source `ScaledDotProductAttention.forward` (lines 27–43): split all
three inputs to heads, apply the primitive, merge; the effective causal
flag is the source expression
`is_causal if is_causal is not None else (self.is_causal if self.is_causal is not None else False)`. -/
def ScaledDotProductAttention.forward (K : SdpaKernel) (s : ScaledDotProductAttention)
    (query key value : Tensor) (is_causal : Option Bool) : Except Err Tensor :=
  match ScaledDotProductAttention.split_to_multi_head s.num_heads query with
  | .error e => .error e
  | .ok q =>
    match ScaledDotProductAttention.split_to_multi_head s.num_heads key with
    | .error e => .error e
    | .ok k =>
      match ScaledDotProductAttention.split_to_multi_head s.num_heads value with
      | .error e => .error e
      | .ok v =>
        .ok (ScaledDotProductAttention.merge_multi_head s.num_heads
          (scaled_dot_product_attention K q k v
            (match is_causal with
              | some b => b
              | none =>
                match s.is_causal with
                | some b => b
                | none => false)))

/-- The same forward computation with the causal flag given explicitly. -/
def ScaledDotProductAttention.forwardWithFlag (K : SdpaKernel) (num_heads : Nat)
    (query key value : Tensor) (flag : Bool) : Except Err Tensor :=
  match ScaledDotProductAttention.split_to_multi_head num_heads query with
  | .error e => .error e
  | .ok q =>
    match ScaledDotProductAttention.split_to_multi_head num_heads key with
    | .error e => .error e
    | .ok k =>
      match ScaledDotProductAttention.split_to_multi_head num_heads value with
      | .error e => .error e
      | .ok v =>
        .ok (ScaledDotProductAttention.merge_multi_head num_heads
          (scaled_dot_product_attention K q k v flag))

/-- Configuration of one linear projection: input features, output
features, and whether the bias is enabled. -/
structure LinearCfg where
  in_features : Nat
  out_features : Nat
  bias : Bool
deriving DecidableEq

/-- Python `a or b` for an optional dimension argument: `None` and `0`
are both falsy (source `key_embedding_dim or embedding_dim`). -/
def orDefault (v : Option Nat) (d : Nat) : Nat :=
  match v with
  | none => d
  | some k => if k = 0 then d else k

/-- Static configuration that `Attention.__init__` (source lines 73–126)
gives its sub-layers: the three query/key/value projections distributed
over the input triple, the multi-head attention step, and the final
output projection. -/
structure AttentionCfg where
  embedding_dim : Nat
  num_heads : Nat
  heads_dim : Nat
  key_embedding_dim : Nat
  value_embedding_dim : Nat
  use_bias : Bool
  is_causal : Option Bool
  query_proj : LinearCfg
  key_proj : LinearCfg
  value_proj : LinearCfg
  out_proj : LinearCfg

/-- The configuration built by a successful `Attention.__init__` run:
query `Linear(E, E, bias=use_bias)`, key `Linear(kE, E, bias=use_bias)`,
value `Linear(vE, E, bias=use_bias)`, then attention, then
`Linear(E, E, bias=True)`. -/
def Attention.cfg (embedding_dim num_heads : Nat)
    (key_embedding_dim value_embedding_dim : Option Nat)
    (use_bias : Bool) (is_causal : Option Bool) : AttentionCfg :=
  { embedding_dim := embedding_dim
  , num_heads := num_heads
  , heads_dim := embedding_dim / num_heads
  , key_embedding_dim := orDefault key_embedding_dim embedding_dim
  , value_embedding_dim := orDefault value_embedding_dim embedding_dim
  , use_bias := use_bias
  , is_causal := is_causal
  , query_proj := ⟨embedding_dim, embedding_dim, use_bias⟩
  , key_proj := ⟨orDefault key_embedding_dim embedding_dim, embedding_dim, use_bias⟩
  , value_proj := ⟨orDefault value_embedding_dim embedding_dim, embedding_dim, use_bias⟩
  , out_proj := ⟨embedding_dim, embedding_dim, true⟩ }

/-- Source `Attention.__init__` (lines 84–86): asserts
`embedding_dim % num_heads == 0` before building anything (with
`num_heads = 0` the Python modulo itself raises, also a construction
failure). -/
def Attention.make (embedding_dim num_heads : Nat)
    (key_embedding_dim value_embedding_dim : Option Nat)
    (use_bias : Bool) (is_causal : Option Bool) : Option AttentionCfg :=
  if num_heads ≠ 0 ∧ embedding_dim % num_heads = 0 then
    some (Attention.cfg embedding_dim num_heads key_embedding_dim value_embedding_dim
      use_bias is_causal)
  else none

/-- C7 —
Whenever `Attention` construction succeeds, the final output projection
is `embedding_dim → embedding_dim` with its bias always enabled, while
the three query/key/value projections carry the constructor's `use_bias`
value. -/
theorem spec_C7 (E H : Nat) (kE vE : Option Nat) (ub : Bool) (ic : Option Bool)
    (cfg : AttentionCfg) (h : Attention.make E H kE vE ub ic = some cfg) :
    cfg.out_proj.bias = true ∧
    cfg.out_proj.in_features = E ∧ cfg.out_proj.out_features = E ∧
    cfg.query_proj.bias = ub ∧ cfg.key_proj.bias = ub ∧ cfg.value_proj.bias = ub := by
  simp only [Attention.make] at h
  split at h
  · injection h with h'
    rw [← h']
    exact ⟨rfl, rfl, rfl, rfl, rfl, rfl⟩
  · exact absurd h (by simp)

/-- C7 witness at `E = 4`, `H = 2`, `use_bias = false`. -/
theorem spec_C7_witness :
    (Attention.cfg 4 2 none none false none).out_proj.bias = true ∧
    (Attention.cfg 4 2 none none false none).out_proj.in_features = 4 ∧
    (Attention.cfg 4 2 none none false none).out_proj.out_features = 4 ∧
    (Attention.cfg 4 2 none none false none).query_proj.bias = false ∧
    (Attention.cfg 4 2 none none false none).key_proj.bias = false ∧
    (Attention.cfg 4 2 none none false none).value_proj.bias = false :=
  spec_C7 4 2 none none false none (Attention.cfg 4 2 none none false none) rfl

/-- Concrete rank-3 tensor with embedding dimension 3 (not divisible by 2). -/
def tC2 : Tensor := ⟨[1, 1, 3], fun _ => 0⟩

/-- Trivial concrete attention kernel. -/
def KC2 : SdpaKernel := fun _ _ _ _ _ _ _ _ _ _ _ => 0

/-- C2 counterexample —
With `E = 3`, `H = 2` (so `E % H ≠ 0`), constructing
`ScaledDotProductAttention(num_heads=2)` does not fail: `__init__` checks
nothing and returns the configured module.  The divisibility check fires
only at call time: the first forward call on a `(1, 1, 3)` input raises
the `split_to_multi_head` assertion.  This refutes both halves of the
claim for `ScaledDotProductAttention` ("fails before any forward call",
"never at call time"). -/
theorem spec_C2_counterexample :
    ScaledDotProductAttention.make 2 none =
      { num_heads := 2, is_causal := none } ∧
    ScaledDotProductAttention.forward KC2 (ScaledDotProductAttention.make 2 none)
      tC2 tC2 tC2 none = .error .assertFail :=
  ⟨rfl, rfl⟩

/-- C2 as amended —
For `(E, H)` with `E % H ≠ 0`, constructing `Attention` fails at
construction time, while `ScaledDotProductAttention` construction performs
no check at all: its divisibility assertion fires at call time, inside
`split_to_multi_head`, on the first forward call with a rank-3 input whose
embedding dimension is `E`. -/
theorem spec_C2_amended (E H : Nat) (h : E % H ≠ 0) :
    (∀ (kE vE : Option Nat) (ub : Bool) (ic : Option Bool),
      Attention.make E H kE vE ub ic = none) ∧
    (∀ (K : SdpaKernel) (d call : Option Bool) (B S : Nat) (q k v : Tensor),
      q.shape = [B, S, E] →
      ScaledDotProductAttention.forward K ⟨H, d⟩ q k v call = .error .assertFail) := by
  constructor
  · intro kE vE ub ic
    rw [Attention.make, if_neg]
    intro hcontra
    exact h hcontra.2
  · intro K d call B S q k v hq
    have hlen : q.shape.length = 3 := by rw [hq]; rfl
    have hlast : q.lastDim = E := by simp [Tensor.lastDim, hq, getLastD_triple]
    have hsplit : ScaledDotProductAttention.split_to_multi_head H q =
        .error .assertFail := by
      simp only [ScaledDotProductAttention.split_to_multi_head]
      rw [if_pos hlen, hlast, if_neg h]
    simp only [ScaledDotProductAttention.forward, hsplit]

/-- C2 amended, witness at `E = 3`, `H = 2`, input shape `(1, 1, 3)`. -/
theorem spec_C2_amended_witness :
    (∀ (kE vE : Option Nat) (ub : Bool) (ic : Option Bool),
      Attention.make 3 2 kE vE ub ic = none) ∧
    (∀ (K : SdpaKernel) (d call : Option Bool) (B S : Nat) (q k v : Tensor),
      q.shape = [B, S, 3] →
      ScaledDotProductAttention.forward K ⟨2, d⟩ q k v call = .error .assertFail) :=
  spec_C2_amended 3 2 (by decide)

/-- C6 —
The effective causal flag of `ScaledDotProductAttention.forward` follows
the source resolution order: the explicit call-time argument when it is
not `None`, else the instance default when it is not `None`, else `false`. -/
theorem spec_C6 (K : SdpaKernel) (H : Nat) (query key value : Tensor) :
    (∀ (d : Option Bool) (b : Bool),
      ScaledDotProductAttention.forward K ⟨H, d⟩ query key value (some b) =
        ScaledDotProductAttention.forwardWithFlag K H query key value b) ∧
    (∀ b : Bool,
      ScaledDotProductAttention.forward K ⟨H, some b⟩ query key value none =
        ScaledDotProductAttention.forwardWithFlag K H query key value b) ∧
    ScaledDotProductAttention.forward K ⟨H, none⟩ query key value none =
      ScaledDotProductAttention.forwardWithFlag K H query key value false :=
  ⟨fun _ _ => rfl, fun _ => rfl, rfl⟩

/-- C10 —
With `num_heads = 1` and rank-3 inputs, `ScaledDotProductAttention.forward`
returns exactly the raw `scaled_dot_product_attention` primitive applied to
the unsplit inputs with the same resolved causal flag: the head split and
merge only insert and remove a unit head axis. -/
theorem spec_C10 (K : SdpaKernel) (ic call : Option Bool) (B Sq Sk E : Nat)
    (q k v : Tensor) (hq : q.shape = [B, Sq, E]) (hk : k.shape = [B, Sk, E])
    (hv : v.shape = [B, Sk, E]) :
    ScaledDotProductAttention.forward K ⟨1, ic⟩ q k v call =
      .ok (scaled_dot_product_attention K q k v
        (match call with
          | some b => b
          | none => match ic with | some b => b | none => false)) := by
  set fl := (match call with
    | some b => b
    | none => match ic with | some b => b | none => false) with hfl
  have hqs : ScaledDotProductAttention.split_to_multi_head 1 q =
      .ok ((q.reshape [B, Sq, 1, E]).transpose12) := by
    rw [split_to_multi_head_eq 1 q hq (Nat.mod_one E), Nat.div_one]
  have hks : ScaledDotProductAttention.split_to_multi_head 1 k =
      .ok ((k.reshape [B, Sk, 1, E]).transpose12) := by
    rw [split_to_multi_head_eq 1 k hk (Nat.mod_one E), Nat.div_one]
  have hvs : ScaledDotProductAttention.split_to_multi_head 1 v =
      .ok ((v.reshape [B, Sk, 1, E]).transpose12) := by
    rw [split_to_multi_head_eq 1 v hv (Nat.mod_one E), Nat.div_one]
  set q2 := (q.reshape [B, Sq, 1, E]).transpose12 with hq2def
  set k2 := (k.reshape [B, Sk, 1, E]).transpose12 with hk2def
  set v2 := (v.reshape [B, Sk, 1, E]).transpose12 with hv2def
  have hq2s : q2.shape = [B, 1, Sq, E] := Tensor.transpose12_shape _ rfl
  have hk2s : k2.shape = [B, 1, Sk, E] := Tensor.transpose12_shape _ rfl
  have hq2d : q2.data = q.data :=
    funext fun j => Tensor.transpose12_unit_dim2 (q.reshape [B, Sq, 1, E]) rfl j
  have hk2d : k2.data = k.data :=
    funext fun j => Tensor.transpose12_unit_dim2 (k.reshape [B, Sk, 1, E]) rfl j
  have hv2d : v2.data = v.data :=
    funext fun j => Tensor.transpose12_unit_dim2 (v.reshape [B, Sk, 1, E]) rfl j
  simp only [ScaledDotProductAttention.forward, hqs, hks, hvs, ← hfl]
  congr 1
  set m := scaled_dot_product_attention K q2 k2 v2 fl with hm
  have hms : m.shape = [B, 1, Sq, E] := hq2s
  have hdim0 : m.dim 0 = B := by simp [Tensor.dim, hms]
  have hdim2 : m.dim 2 = Sq := by simp [Tensor.dim, hms]
  have hlast : m.lastDim = E := by simp [Tensor.lastDim, hms]
  refine Tensor.ext_shape_data ?_ ?_
  · show [m.dim 0, m.dim 2, 1 * m.lastDim] = (scaled_dot_product_attention K q k v fl).shape
    show [m.dim 0, m.dim 2, 1 * m.lastDim] = q.shape
    rw [hdim0, hdim2, hlast, Nat.one_mul, hq]
  · intro i
    show m.transpose12.data i = (scaled_dot_product_attention K q k v fl).data i
    rw [Tensor.transpose12_unit_dim1 m hms i]
    have hq2sq : q2.seqDim = Sq := by simp [Tensor.seqDim, hq2s]
    have hk2sq : k2.seqDim = Sk := by simp [Tensor.seqDim, hk2s]
    have hq2ld : q2.lastDim = E := by simp [Tensor.lastDim, hq2s]
    have hqsq : q.seqDim = Sq := by simp [Tensor.seqDim, hq]
    have hksq : k.seqDim = Sk := by simp [Tensor.seqDim, hk]
    have hqld : q.lastDim = E := by simp [Tensor.lastDim, hq, getLastD_triple]
    show K q2.seqDim k2.seqDim q2.lastDim
        q2.data (i / (q2.seqDim * q2.lastDim) * (q2.seqDim * q2.lastDim))
        k2.data (i / (q2.seqDim * q2.lastDim) * (k2.seqDim * q2.lastDim))
        v2.data (i / (q2.seqDim * q2.lastDim) * (k2.seqDim * q2.lastDim))
        fl (i % (q2.seqDim * q2.lastDim)) =
      K q.seqDim k.seqDim q.lastDim
        q.data (i / (q.seqDim * q.lastDim) * (q.seqDim * q.lastDim))
        k.data (i / (q.seqDim * q.lastDim) * (k.seqDim * q.lastDim))
        v.data (i / (q.seqDim * q.lastDim) * (k.seqDim * q.lastDim))
        fl (i % (q.seqDim * q.lastDim))
    rw [hq2sq, hk2sq, hq2ld, hq2d, hk2d, hv2d, hqsq, hksq, hqld]

/-- C10 witness at `B = Sq = Sk = 1`, `E = 2`. -/
theorem spec_C10_witness :
    ScaledDotProductAttention.forward KC2 ⟨1, none⟩
        ⟨[1, 1, 2], fun i => (i : ℚ)⟩ ⟨[1, 1, 2], fun i => (i : ℚ)⟩
        ⟨[1, 1, 2], fun i => (i : ℚ)⟩ none =
      .ok (scaled_dot_product_attention KC2 ⟨[1, 1, 2], fun i => (i : ℚ)⟩
        ⟨[1, 1, 2], fun i => (i : ℚ)⟩ ⟨[1, 1, 2], fun i => (i : ℚ)⟩
        (match (none : Option Bool) with
          | some b => b
          | none => match (none : Option Bool) with | some b => b | none => false)) :=
  spec_C10 KC2 none none 1 1 1 2 _ _ _ rfl rfl rfl

/-- Modelled from the spec: the per-forward-pass context store (§4.2, §3).
Only the slots actually used by the embedded code are carried: the
`"flatten"`/`"sizes"` stack of `CrossAttentionBlock2d` (a Python list used
as a stack: push appends, pop removes the last element), the conditioning
slot `("cross_attention_block", context_key)` read by
`CrossAttentionBlock` (`none` when never written), and the
`"reshape"`/`"height"`,`"width"` record of `SelfAttention2d` (seeded to
`None` and overwritten, not stacked, on each flatten).  `pushes` and
`pops` are ghost counters, incremented exactly when the shape stack is
pushed or popped; they have no influence on any computation. -/
structure Ctx where
  flatten_sizes : List (List Nat)
  cross : Option Tensor
  reshape_height : Option Nat
  reshape_width : Option Nat
  pushes : Nat
  pops : Nat

/-- Source `SelfAttention2d.tensor_2d_to_sequence` (lines 178–183):
record `height, width = x.shape[-2:]` into the `"reshape"` context
(overwriting any previous record), then
`x.reshape(x.shape[0], x.shape[1], height*width).transpose(1, 2)`. -/
def SelfAttention2d.tensor_2d_to_sequence (x : Tensor) (ctx : Ctx) : Tensor × Ctx :=
  ((x.reshape [x.dim 0, x.dim 1, x.seqDim * x.lastDim]).transpose12,
    { ctx with reshape_height := some x.seqDim, reshape_width := some x.lastDim })

/-- Source `SelfAttention2d.sequence_to_tensor_2d` (lines 185–189): read
`height, width` from the `"reshape"` context (a fatal error when the
record was never written), then
`x.transpose(1, 2).reshape(x.shape[0], x.shape[2], height, width)`. -/
def SelfAttention2d.sequence_to_tensor_2d (x : Tensor) (ctx : Ctx) :
    Except Err (Tensor × Ctx) :=
  match ctx.reshape_height, ctx.reshape_width with
  | some height, some width =>
      .ok (x.transpose12.reshape [x.dim 0, x.dim 2, height, width], ctx)
  | _, _ => .error .contextMiss

/-- C9 —
For a rank-4 tensor of shape `(B, C, H, W)`, `tensor_2d_to_sequence`
followed by `sequence_to_tensor_2d` (through the shared per-pass
`"reshape"` context record, which the flatten overwrites) returns a
tensor of the same shape agreeing with the input element for element. -/
theorem spec_C9 (B C Hh W : Nat) (x : Tensor) (hx : x.shape = [B, C, Hh, W]) (ctx : Ctx) :
    ∃ y ctx2, SelfAttention2d.tensor_2d_to_sequence x ctx = (y, ctx2) ∧
      ctx2.reshape_height = some Hh ∧ ctx2.reshape_width = some W ∧
      ∃ z, SelfAttention2d.sequence_to_tensor_2d y ctx2 = .ok (z, ctx2) ∧
        z.shape = [B, C, Hh, W] ∧
        ∀ b c h w, b < B → c < C → h < Hh → w < W →
          z.data (b * (C * (Hh * W)) + (c * (Hh * W) + (h * W + w))) =
            x.data (b * (C * (Hh * W)) + (c * (Hh * W) + (h * W + w))) := by
  have hdim0 : x.dim 0 = B := by simp [Tensor.dim, hx]
  have hdim1 : x.dim 1 = C := by simp [Tensor.dim, hx]
  have hseq : x.seqDim = Hh := by simp [Tensor.seqDim, hx]
  have hlast : x.lastDim = W := by simp [Tensor.lastDim, hx]
  set y := (x.reshape [B, C, Hh * W]).transpose12 with hy
  have hfirst : SelfAttention2d.tensor_2d_to_sequence x ctx =
      (y, { ctx with reshape_height := some Hh, reshape_width := some W }) := by
    simp only [SelfAttention2d.tensor_2d_to_sequence, hseq, hlast, hdim0, hdim1]
  have hys : y.shape = [B, Hh * W, C] := Tensor.transpose12_shape _ rfl
  have hydim0 : y.dim 0 = B := by simp [Tensor.dim, hys]
  have hydim2 : y.dim 2 = C := by simp [Tensor.dim, hys]
  refine ⟨y, { ctx with reshape_height := some Hh, reshape_width := some W },
    hfirst, rfl, rfl, y.transpose12.reshape [y.dim 0, y.dim 2, Hh, W], rfl, ?_, ?_⟩
  · show [y.dim 0, y.dim 2, Hh, W] = [B, C, Hh, W]
    rw [hydim0, hydim2]
  · intro b c h w hb hc hh hw
    have hp : h * W + w < Hh * W := index_bound hh hw
    show y.transpose12.data _ = x.data _
    have hidx1 : b * (C * (Hh * W)) + (c * (Hh * W) + (h * W + w)) =
        b * (C * (Hh * W * 1)) + (c * (Hh * W * 1) + ((h * W + w) * 1 + 0)) := by ring
    rw [hidx1]
    have step1 := @Tensor.transpose12_data_spec y B (Hh * W) C 1 [] hys rfl
      b (h * W + w) c 0 hp hc (by decide)
    rw [step1]
    have step2 := @Tensor.transpose12_data_spec (x.reshape [B, C, Hh * W]) B C (Hh * W)
      1 [] rfl rfl b c (h * W + w) 0 hc hp (by decide)
    rw [← hy] at step2
    rw [step2]
    rfl

/-- C9 witness at `B = C = 1`, `H = 2`, `W = 2`. -/
theorem spec_C9_witness :
    ∃ y ctx2, SelfAttention2d.tensor_2d_to_sequence
        ⟨[1, 1, 2, 2], fun i => (i : ℚ)⟩ ⟨[], none, none, none, 0, 0⟩ = (y, ctx2) ∧
      ctx2.reshape_height = some 2 ∧ ctx2.reshape_width = some 2 ∧
      ∃ z, SelfAttention2d.sequence_to_tensor_2d y ctx2 = .ok (z, ctx2) ∧
        z.shape = [1, 1, 2, 2] ∧
        ∀ b c h w, b < 1 → c < 1 → h < 2 → w < 2 →
          z.data (b * (1 * (2 * 2)) + (c * (2 * 2) + (h * 2 + w))) =
            (⟨[1, 1, 2, 2], fun i => (i : ℚ)⟩ : Tensor).data
              (b * (1 * (2 * 2)) + (c * (2 * 2) + (h * 2 + w))) :=
  spec_C9 1 1 2 2 ⟨[1, 1, 2, 2], fun i => (i : ℚ)⟩ rfl ⟨[], none, none, none, 0, 0⟩

/-- Modelled from the spec: a value flowing through the combinator tree —
either a tensor or a spatial-size record (the popped shape tuple fed to
`Unflatten`). -/
inductive Val where
  | tensor : Tensor → Val
  | size : List Nat → Val

/-- Modelled from the spec (§4.1, §6): a node maps a tuple of inputs and
the per-pass context store to a tuple of outputs and the updated store,
or fails fatally. -/
def Node : Type := List Val → Ctx → Except Err (List Val × Ctx)

/-- Modelled from the spec: `Identity` passes its inputs through. -/
def idNode : Node := fun xs ctx => .ok (xs, ctx)

/-- Lift a pure single-tensor function to a node expecting exactly one
tensor input. -/
def lift1 (f : Tensor → Tensor) : Node := fun xs ctx =>
  match xs with
  | [.tensor t] => .ok ([.tensor (f t)], ctx)
  | _ => .error .assertFail

/-- Modelled from the spec (§4.1): `Chain` feeds each child the previous
child's full output tuple; a failure anywhere aborts the pass. -/
def chainN : List Node → Node
  | [] => fun xs ctx => .ok (xs, ctx)
  | n :: ns => fun xs ctx =>
      match n xs ctx with
      | .ok (ys, ctx2) => chainN ns ys ctx2
      | .error e => .error e

/-- Modelled from the spec (§4.1): `Parallel` feeds every child the same
input tuple and concatenates the outputs in declared child order. -/
def parallelN : List Node → Node
  | [] => fun _ ctx => .ok ([], ctx)
  | n :: ns => fun xs ctx =>
      match n xs ctx with
      | .ok (ys, ctx2) =>
          match parallelN ns xs ctx2 with
          | .ok (zs, ctx3) => .ok (ys ++ zs, ctx3)
          | .error e => .error e
      | .error e => .error e

/-- Modelled from the spec (§4.1): `Distribute` feeds child `i` the `i`-th
input element; a tuple length mismatch is fatal. -/
def distributeN : List Node → Node
  | [] => fun xs ctx =>
      match xs with
      | [] => .ok ([], ctx)
      | _ => .error .assertFail
  | n :: ns => fun xs ctx =>
      match xs with
      | [] => .error .assertFail
      | x :: xs2 =>
          match n [x] ctx with
          | .ok (ys, ctx2) =>
              match distributeN ns xs2 ctx2 with
              | .ok (zs, ctx3) => .ok (ys ++ zs, ctx3)
              | .error e => .error e
          | .error e => .error e

/-- Elementwise sum of two tensors, used by the residual accumulation of
`Sum` (only applied to congruent shapes, spec §3). -/
def addT (t u : Tensor) : Tensor := ⟨t.shape, fun i => t.data i + u.data i⟩

/-- Modelled from the spec (§3, §4.1): accumulating a branch output onto
the running sum requires congruent tensor shapes. -/
def addVal : Val → Val → Except Err Val
  | .tensor t, .tensor u =>
      if t.shape = u.shape then .ok (.tensor (addT t u)) else .error .assertFail
  | _, _ => .error .assertFail

def addVals : List Val → List Val → Except Err (List Val)
  | [], [] => .ok []
  | a :: l1, b :: l2 =>
      match addVal a b with
      | .ok c =>
          match addVals l1 l2 with
          | .ok cs => .ok (c :: cs)
          | .error e => .error e
      | .error e => .error e
  | _, _ => .error .assertFail

def sumGo : List Node → List Val → List Val → Ctx → Except Err (List Val × Ctx)
  | [], acc, _, ctx => .ok (acc, ctx)
  | n :: ns, acc, xs, ctx =>
      match n xs ctx with
      | .ok (ys, ctx2) =>
          match addVals acc ys with
          | .ok acc2 => sumGo ns acc2 xs ctx2
          | .error e => .error e
      | .error e => .error e

/-- Modelled from the spec (§4.1): `Sum` evaluates its branches on the
same input in declared order and accumulates the outputs by elementwise
addition, left to right. -/
def sumN : List Node → Node
  | [] => fun _ _ => .error .assertFail
  | n :: ns => fun xs ctx =>
      match n xs ctx with
      | .ok (ys, ctx2) => sumGo ns ys xs ctx2
      | .error e => .error e

/-- Learned parameters of a linear projection (or of a `1x1` convolution):
a weight matrix and a bias vector, as opaque functions. -/
structure LinearParams where
  w : Nat → Nat → ℚ
  b : Nat → ℚ

/-- Modelled from the spec (§6): `Linear` is an affine map over the last
axis; the output shape replaces the last dimension by `out_features`. -/
def linearFn (c : LinearCfg) (p : LinearParams) (x : Tensor) : Tensor :=
  { shape := x.shape.dropLast ++ [c.out_features]
  , data := fun i =>
      (if c.bias then p.b (i % c.out_features) else 0) +
        ∑ j ∈ Finset.range c.in_features,
          p.w (i % c.out_features) j * x.data (i / c.out_features * c.in_features + j) }

/-- Modelled from the spec (§6): a `1x1` convolution maps the channel
axis (axis 1) pointwise over all spatial positions; the output shape
replaces axis 1 by `outC`. -/
def conv1x1Fn (inC outC : Nat) (p : LinearParams) (x : Tensor) : Tensor :=
  { shape := x.shape.set 1 outC
  , data := fun i =>
      p.b (i / listProd (x.shape.drop 2) % outC) +
        ∑ j ∈ Finset.range inC,
          p.w (i / listProd (x.shape.drop 2) % outC) j *
            x.data (i / (listProd (x.shape.drop 2) * outC) * (inC * listProd (x.shape.drop 2)) +
              (j * listProd (x.shape.drop 2) + i % listProd (x.shape.drop 2))) }

/-- Modelled from the spec (§4.6, glossary): `GLU` splits the last axis
in half, gates one half through the activation and multiplies it
elementwise with the other half. -/
def gluFn (act : ℚ → ℚ) (x : Tensor) : Tensor :=
  { shape := x.shape.dropLast ++ [x.lastDim / 2]
  , data := fun i =>
      x.data (i / (x.lastDim / 2) * x.lastDim + i % (x.lastDim / 2)) *
        act (x.data (i / (x.lastDim / 2) * x.lastDim +
          (x.lastDim / 2 + i % (x.lastDim / 2)))) }

/-- Modelled from the spec (§6): `Flatten(start_dim=2, end_dim=-1)`
collapses all axes from 2 on into one; row-major data is unchanged. -/
def flattenFrom2 (t : Tensor) : Tensor :=
  ⟨t.shape.take 2 ++ [listProd (t.shape.drop 2)], t.data⟩

/-- Source `StatefulFlatten` (cross_attention.py lines 87–102) with
`start_dim=2`: `SetContext` runs the `push` callback, appending
`x.shape[2:]` to the `"flatten"`/`"sizes"` stack while passing the input
through, then `Flatten(start_dim=2)` runs.  The ghost counter `pushes`
records the push. -/
def StatefulFlatten.node : Node := fun xs ctx =>
  match xs with
  | [.tensor t] =>
      .ok ([.tensor (flattenFrom2 t)],
        { ctx with flatten_sizes := ctx.flatten_sizes ++ [t.shape.drop 2]
                 , pushes := ctx.pushes + 1 })
  | _ => .error .assertFail

/-- Source `UseContext(context="flatten", key="sizes").compose(lambda x: x.pop())`
(cross_attention.py lines 164–167, 173–176), modelled from the spec
(§4.2): ignore the node input, read the sizes stack, pop its last element
(mutating the stored list) and return the popped size; popping an empty
stack is fatal.  The ghost counter `pops` records the pop. -/
def popSizeNode : Node := fun _ ctx =>
  match ctx.flatten_sizes.getLast? with
  | some sz =>
      .ok ([.size sz],
        { ctx with flatten_sizes := ctx.flatten_sizes.dropLast
                 , pops := ctx.pops + 1 })
  | none => .error .assertFail

/-- Source `UseContext(context="cross_attention_block", key=context_key)`
(cross_attention.py lines 61–62), modelled from the spec (§4.2): ignore
the input and return the stored conditioning tensor; a slot that was
never written is a fatal context-not-found error, never a silent default. -/
def useContextNode : Node := fun _ ctx =>
  match ctx.cross with
  | some t => .ok ([.tensor t], ctx)
  | none => .error .contextMiss

/-- Modelled from the spec (§6): `Unflatten(dim=2)` consumes a
`(tensor, sizes)` pair and expands axis 2 into `sizes`; the element count
must be preserved. -/
def unflattenNode : Node := fun xs ctx =>
  match xs with
  | [.tensor t, .size sz] =>
      if t.dim 2 = listProd sz then
        .ok ([.tensor ⟨t.shape.take 2 ++ sz, t.data⟩], ctx)
      else .error .assertFail
  | _ => .error .assertFail

/-- Modelled from the spec (§6): `Transpose(1, 2)` as a node. -/
def transposeNode : Node := lift1 Tensor.transpose12

/-- `ScaledDotProductAttention` as a chain node (attentions.py line 118):
receives the projected `(query, key, value)` triple from `Distribute`,
with no call-time causal argument. -/
def sdpaNode (K : SdpaKernel) (num_heads : Nat) (is_causal : Option Bool) : Node :=
  fun xs ctx =>
    match xs with
    | [.tensor q, .tensor k, .tensor v] =>
        match ScaledDotProductAttention.forward K ⟨num_heads, is_causal⟩ q k v none with
        | .ok t => .ok ([.tensor t], ctx)
        | .error e => .error e
    | _ => .error .assertFail

/-- Source `Attention.__init__` chain body (attentions.py lines 94–126):
`Distribute` of the three projections, multi-head attention, final output
projection. -/
def Attention.node (cfg : AttentionCfg) (pq pk pv pout : LinearParams)
    (K : SdpaKernel) : Node :=
  chainN
    [ distributeN
        [ lift1 (linearFn cfg.query_proj pq)
        , lift1 (linearFn cfg.key_proj pk)
        , lift1 (linearFn cfg.value_proj pv) ]
    , sdpaNode K cfg.num_heads cfg.is_causal
    , lift1 (linearFn cfg.out_proj pout) ]

/-- Source `SelfAttention` (attentions.py lines 129–147): `Attention`
with `Parallel(Identity(), Identity(), Identity())` inserted in front. -/
def SelfAttention.node (cfg : AttentionCfg) (pq pk pv pout : LinearParams)
    (K : SdpaKernel) : Node :=
  chainN [parallelN [idNode, idNode, idNode], Attention.node cfg pq pk pv pout K]

/-- Learned parameters and external kernels of one `CrossAttentionBlock`:
the three layer norms (external normalization collaborators, kept
opaque), the linear parameters of the two attentions and of the
feed-forward, the GLU activation, and the attention kernel. -/
structure CABParams where
  ln1 : Tensor → Tensor
  ln2 : Tensor → Tensor
  ln3 : Tensor → Tensor
  sa_q : LinearParams
  sa_k : LinearParams
  sa_v : LinearParams
  sa_out : LinearParams
  ca_q : LinearParams
  ca_k : LinearParams
  ca_v : LinearParams
  ca_out : LinearParams
  ff1 : LinearParams
  ff2 : LinearParams
  act : ℚ → ℚ
  K : SdpaKernel

/-- Source `CrossAttentionBlock` first residual branch (cross_attention.py
lines 46–54): `LayerNorm` then `SelfAttention(embedding_dim, num_heads,
use_bias)`. -/
def CrossAttentionBlock.selfAttnBranch (E H : Nat) (ub : Bool) (p : CABParams) : Node :=
  chainN
    [ lift1 p.ln1
    , SelfAttention.node (Attention.cfg E H none none ub none)
        p.sa_q p.sa_k p.sa_v p.sa_out p.K ]

/-- Source `CrossAttentionBlock` second residual branch (lines 55–74):
`LayerNorm`, `Parallel(Identity, UseContext, UseContext)` building the
`(query, key, value)` triple from the conditioning slot, then
`Attention(embedding_dim, num_heads, key_embedding_dim=value_embedding_dim=context_embedding_dim,
use_bias)`. -/
def CrossAttentionBlock.crossAttnBranch (E ctxE H : Nat) (ub : Bool) (p : CABParams) : Node :=
  chainN
    [ lift1 p.ln2
    , parallelN [idNode, useContextNode, useContextNode]
    , Attention.node (Attention.cfg E H (some ctxE) (some ctxE) ub none)
        p.ca_q p.ca_k p.ca_v p.ca_out p.K ]

/-- Source `CrossAttentionBlock` third residual branch (lines 75–83):
`LayerNorm`, `Linear(E, 2*4*E)`, `GLU(GeLU())`, `Linear(4*E, E)`. -/
def CrossAttentionBlock.ffBranch (E : Nat) (p : CABParams) : Node :=
  chainN
    [ lift1 p.ln3
    , lift1 (linearFn ⟨E, 2 * (4 * E), true⟩ p.ff1)
    , lift1 (gluFn p.act)
    , lift1 (linearFn ⟨4 * E, E, true⟩ p.ff2) ]

/-- Source `CrossAttentionBlock.__init__` chain (lines 45–84): three
`Sum(Identity(), branch)` residual blocks applied in sequence. -/
def CrossAttentionBlock.node (E ctxE H : Nat) (ub : Bool) (p : CABParams) : Node :=
  chainN
    [ sumN [idNode, CrossAttentionBlock.selfAttnBranch E H ub p]
    , sumN [idNode, CrossAttentionBlock.crossAttnBranch E ctxE H ub p]
    , sumN [idNode, CrossAttentionBlock.ffBranch E p] ]

/-- `CrossAttentionBlock` construction: the two inner `Attention`
constructors assert `embedding_dim % num_heads == 0` (attentions.py lines
84–86) before the chain is assembled. -/
def CrossAttentionBlock.make (E ctxE H : Nat) (ub : Bool) (p : CABParams) : Option Node :=
  if H ≠ 0 ∧ E % H = 0 then some (CrossAttentionBlock.node E ctxE H ub p) else none

theorem sum2_eval (br : Node) (t z : Tensor) (ctx ctx2 : Ctx)
    (hbr : br [.tensor t] ctx = .ok ([.tensor z], ctx2)) (hshape : t.shape = z.shape) :
    sumN [idNode, br] [.tensor t] ctx = .ok ([.tensor (addT t z)], ctx2) := by
  simp only [sumN, sumGo, idNode, addVals, addVal, hbr, hshape, if_true]

/-- C5 —
If, on the values they respectively receive, the self-attention branch,
the conditioning-attention branch, and the feed-forward branch of a
`CrossAttentionBlock` each produce an all-zero tensor (of congruent
shape), then the block's output equals its input exactly: each `Sum` adds
the branch result to the untouched `Identity` branch. -/
theorem spec_C5 (E ctxE H : Nat) (ub : Bool) (p : CABParams) (x z1 z2 z3 : Tensor)
    (ctx ctx1 ctx2 ctx3 : Ctx)
    (h1 : CrossAttentionBlock.selfAttnBranch E H ub p [.tensor x] ctx =
      .ok ([.tensor z1], ctx1))
    (hs1 : z1.shape = x.shape) (hz1 : ∀ i, z1.data i = 0)
    (h2 : CrossAttentionBlock.crossAttnBranch E ctxE H ub p [.tensor (addT x z1)] ctx1 =
      .ok ([.tensor z2], ctx2))
    (hs2 : z2.shape = x.shape) (hz2 : ∀ i, z2.data i = 0)
    (h3 : CrossAttentionBlock.ffBranch E p [.tensor (addT (addT x z1) z2)] ctx2 =
      .ok ([.tensor z3], ctx3))
    (hs3 : z3.shape = x.shape) (hz3 : ∀ i, z3.data i = 0) :
    ∃ y, CrossAttentionBlock.node E ctxE H ub p [.tensor x] ctx = .ok ([.tensor y], ctx3) ∧
      y.shape = x.shape ∧ ∀ i, y.data i = x.data i := by
  have e1 := sum2_eval _ x z1 ctx ctx1 h1 hs1.symm
  have e2 := sum2_eval _ (addT x z1) z2 ctx1 ctx2 h2 hs2.symm
  have e3 := sum2_eval _ (addT (addT x z1) z2) z3 ctx2 ctx3 h3 hs3.symm
  refine ⟨addT (addT (addT x z1) z2) z3, ?_, rfl, ?_⟩
  · simp only [CrossAttentionBlock.node, chainN, e1, e2, e3]
  · intro i
    show x.data i + z1.data i + z2.data i + z3.data i = x.data i
    rw [hz1 i, hz2 i, hz3 i]
    ring

/-- C8 —
When the conditioning context slot was never written, evaluating the
conditioning-attention branch of `CrossAttentionBlock` fails with the
fatal context-not-found error at the `UseContext` read, for every input
tensor and every choice of weights — no attention arithmetic is reached
and the read never silently defaults. -/
theorem spec_C8 (E ctxE H : Nat) (ub : Bool) (p : CABParams) (x : Tensor) (ctx : Ctx)
    (h : ctx.cross = none) :
    CrossAttentionBlock.crossAttnBranch E ctxE H ub p [.tensor x] ctx =
      .error .contextMiss := by
  simp only [CrossAttentionBlock.crossAttnBranch, chainN, lift1, parallelN, idNode,
    useContextNode, h]

/-- Parameters of one `CrossAttentionBlock2d`: the group normalization
(external collaborator, opaque), the in/out projection parameters (used
by the linear or the `1x1`-convolution variant), and one `CABParams` per
attention layer (independently configured instances). -/
structure Block2dParams where
  gn : Tensor → Tensor
  proj_in : LinearParams
  proj_out : LinearParams
  layers : Nat → CABParams

/-- Source `CrossAttentionBlock2d` in-projection (cross_attention.py
lines 144–158): `GroupNorm` then, in the linear variant, stateful flatten,
transpose and `Linear(channels, channels)`; in the convolution variant,
`Conv2d(channels, channels, kernel_size=1)` then stateful flatten and
transpose.  (`num_groups` and epsilon only parametrise the opaque
external `GroupNorm`.) -/
def CrossAttentionBlock2d.inBlock (C : Nat) (ulp : Bool) (p : Block2dParams) : Node :=
  if ulp then
    chainN
      [ lift1 p.gn
      , StatefulFlatten.node
      , transposeNode
      , lift1 (linearFn ⟨C, C, true⟩ p.proj_in) ]
  else
    chainN
      [ lift1 p.gn
      , lift1 (conv1x1Fn C C p.proj_in)
      , StatefulFlatten.node
      , transposeNode ]

/-- Source `CrossAttentionBlock2d` out-projection (lines 160–180): in the
linear variant `Linear(channels, channels)`, transpose,
`Parallel(Identity, pop of the sizes stack)`, `Unflatten(dim=2)`; in the
convolution variant transpose, the same parallel pop, unflatten, then the
`1x1` convolution. -/
def CrossAttentionBlock2d.outBlock (C : Nat) (ulp : Bool) (p : Block2dParams) : Node :=
  if ulp then
    chainN
      [ lift1 (linearFn ⟨C, C, true⟩ p.proj_out)
      , transposeNode
      , parallelN [idNode, popSizeNode]
      , unflattenNode ]
  else
    chainN
      [ transposeNode
      , parallelN [idNode, popSizeNode]
      , unflattenNode
      , lift1 (conv1x1Fn C C p.proj_out) ]

/-- Source `CrossAttentionBlock2d.__init__` top level (lines 182–200): a
`Sum` of the `Identity` residual branch and the transform branch
`Chain(in_block, Chain(num_attention_layers × CrossAttentionBlock), out_block)`. -/
def CrossAttentionBlock2d.node (C ctxE H N : Nat) (ub ulp : Bool)
    (p : Block2dParams) : Node :=
  sumN
    [ idNode
    , chainN
        [ CrossAttentionBlock2d.inBlock C ulp p
        , chainN ((List.range N).map fun i => CrossAttentionBlock.node C ctxE H ub (p.layers i))
        , CrossAttentionBlock2d.outBlock C ulp p ] ]

/-- Source `CrossAttentionBlock2d.__init__` assertion (line 132):
`channels % num_attention_heads == 0` is checked before the block is
assembled (with `num_attention_heads = 0` the Python modulo itself
raises). -/
def CrossAttentionBlock2d.make (C ctxE H N : Nat) (ub ulp : Bool)
    (p : Block2dParams) : Option Node :=
  if H ≠ 0 ∧ C % H = 0 then some (CrossAttentionBlock2d.node C ctxE H N ub ulp p)
  else none

/-- Source `CrossAttentionBlock2d.init_context` (lines 202–203): the
`"flatten"`/`"sizes"` stack is seeded with the empty list. -/
def CrossAttentionBlock2d.initSizes : List (List Nat) := []

/-- A tensor-to-tensor collaborator that leaves the shape unchanged
(layer and group normalization, spec §6). -/
def PreservesShape (f : Tensor → Tensor) : Prop := ∀ t, (f t).shape = t.shape

/-- The layer norms of a `CrossAttentionBlock` parameter record are
shape-preserving external collaborators. -/
def CABParams.WellFormed (p : CABParams) : Prop :=
  PreservesShape p.ln1 ∧ PreservesShape p.ln2 ∧ PreservesShape p.ln3

theorem listProd_pair (a b : Nat) : listProd [a, b] = a * b := by
  show a * (b * 1) = a * b
  rw [Nat.mul_one]

theorem linearFn_shape (c : LinearCfg) (p : LinearParams) (x : Tensor) :
    (linearFn c p x).shape = x.shape.dropLast ++ [c.out_features] := rfl

theorem gluFn_shape (act : ℚ → ℚ) (x : Tensor) :
    (gluFn act x).shape = x.shape.dropLast ++ [x.lastDim / 2] := rfl

theorem distribute3_lift (f1 f2 f3 : Tensor → Tensor) (a b c : Tensor) (ctx : Ctx) :
    distributeN [lift1 f1, lift1 f2, lift1 f3] [.tensor a, .tensor b, .tensor c] ctx =
      .ok ([.tensor (f1 a), .tensor (f2 b), .tensor (f3 c)], ctx) := rfl

theorem parallel3_id (v : Val) (ctx : Ctx) :
    parallelN [idNode, idNode, idNode] [v] ctx = .ok ([v, v, v], ctx) := rfl

theorem parallel_id_ctx2 (v : Val) (ctx : Ctx) (tc : Tensor) (h : ctx.cross = some tc) :
    parallelN [idNode, useContextNode, useContextNode] [v] ctx =
      .ok ([v, .tensor tc, .tensor tc], ctx) := by
  simp only [parallelN, idNode, useContextNode, h, List.cons_append, List.nil_append]

theorem chainN_cons (n : Node) (ns : List Node) (xs : List Val) (ctx : Ctx) :
    chainN (n :: ns) xs ctx =
      match n xs ctx with
      | .ok r => chainN ns r.1 r.2
      | .error e => .error e := by
  cases hn : n xs ctx with
  | ok r =>
      obtain ⟨ys, c⟩ := r
      simp only [chainN, hn]
  | error e => simp only [chainN, hn]

theorem chainN_append (l1 l2 : List Node) (xs : List Val) (ctx : Ctx) :
    chainN (l1 ++ l2) xs ctx =
      match chainN l1 xs ctx with
      | .ok r => chainN l2 r.1 r.2
      | .error e => .error e := by
  induction l1 generalizing xs ctx with
  | nil => rfl
  | cons n ns ih =>
      rw [List.cons_append, chainN_cons n (ns ++ l2), chainN_cons n ns]
      cases hn : n xs ctx with
      | ok r => exact ih r.1 r.2
      | error e => rfl

theorem sdpa_forward_ok (K : SdpaKernel) (H E : Nat) (ic cl : Option Bool)
    (q k v : Tensor) (q0 q1 k0 k1 v0 v1 : Nat)
    (hq : q.shape = [q0, q1, E]) (hk : k.shape = [k0, k1, E])
    (hv : v.shape = [v0, v1, E]) (hdvd : E % H = 0) :
    ∃ u, ScaledDotProductAttention.forward K ⟨H, ic⟩ q k v cl = .ok u ∧
      u.shape = [q0, q1, E] := by
  have hqs := split_to_multi_head_eq H q hq hdvd
  have hks := split_to_multi_head_eq H k hk hdvd
  have hvs := split_to_multi_head_eq H v hv hdvd
  simp only [ScaledDotProductAttention.forward, hqs, hks, hvs]
  refine ⟨_, rfl, ?_⟩
  have hq2 : ((q.reshape [q0, q1, H, E / H]).transpose12).shape = [q0, H, q1, E / H] :=
    Tensor.transpose12_shape _ rfl
  have hms : (scaled_dot_product_attention K
      ((q.reshape [q0, q1, H, E / H]).transpose12)
      ((k.reshape [k0, k1, H, E / H]).transpose12)
      ((v.reshape [v0, v1, H, E / H]).transpose12)
      (match cl with
        | some b => b
        | none => match ic with | some b => b | none => false)).shape =
      [q0, H, q1, E / H] := hq2
  show [Tensor.dim _ 0, Tensor.dim _ 2, H * Tensor.lastDim _] = [q0, q1, E]
  rw [show Tensor.dim _ 0 = q0 by simp [Tensor.dim, hms],
    show Tensor.dim _ 2 = q1 by simp [Tensor.dim, hms],
    show Tensor.lastDim _ = E / H by simp [Tensor.lastDim, hms],
    Nat.mul_div_cancel' (Nat.dvd_of_mod_eq_zero hdvd)]

theorem attention_node_ok (E H : Nat) (kE vE : Option Nat) (ub : Bool) (ic : Option Bool)
    (pq pk pv pout : LinearParams) (K : SdpaKernel) (hdvd : E % H = 0)
    (a b c : Tensor) (ctx : Ctx) (a0 a1 a2 b0 b1 b2 c0 c1 c2 : Nat)
    (ha : a.shape = [a0, a1, a2]) (hb : b.shape = [b0, b1, b2])
    (hc : c.shape = [c0, c1, c2]) :
    ∃ u, Attention.node (Attention.cfg E H kE vE ub ic) pq pk pv pout K
        [.tensor a, .tensor b, .tensor c] ctx = .ok ([.tensor u], ctx) ∧
      u.shape = [a0, a1, E] := by
  have hqshape : (linearFn (Attention.cfg E H kE vE ub ic).query_proj pq a).shape =
      [a0, a1, E] := by
    show a.shape.dropLast ++ [E] = [a0, a1, E]
    rw [ha]
    rfl
  have hkshape : (linearFn (Attention.cfg E H kE vE ub ic).key_proj pk b).shape =
      [b0, b1, E] := by
    show b.shape.dropLast ++ [E] = [b0, b1, E]
    rw [hb]
    rfl
  have hvshape : (linearFn (Attention.cfg E H kE vE ub ic).value_proj pv c).shape =
      [c0, c1, E] := by
    show c.shape.dropLast ++ [E] = [c0, c1, E]
    rw [hc]
    rfl
  obtain ⟨u0, hu0, hu0s⟩ := sdpa_forward_ok K H E ic none
    (linearFn (Attention.cfg E H kE vE ub ic).query_proj pq a)
    (linearFn (Attention.cfg E H kE vE ub ic).key_proj pk b)
    (linearFn (Attention.cfg E H kE vE ub ic).value_proj pv c)
    a0 a1 b0 b1 c0 c1 hqshape hkshape hvshape hdvd
  refine ⟨linearFn (Attention.cfg E H kE vE ub ic).out_proj pout u0, ?_, ?_⟩
  · simp only [Attention.node, chainN, distribute3_lift, sdpaNode, Attention.cfg]
    simp only [Attention.cfg] at hu0
    simp only [hu0, lift1]
  · show u0.shape.dropLast ++ [E] = [a0, a1, E]
    rw [hu0s]
    rfl

theorem CrossAttentionBlock.selfAttnBranch_ok (E H : Nat) (ub : Bool) (p : CABParams)
    (hdvd : E % H = 0) (hln : PreservesShape p.ln1) (t : Tensor) (ctx : Ctx)
    (b0 s0 : Nat) (ht : t.shape = [b0, s0, E]) :
    ∃ z, CrossAttentionBlock.selfAttnBranch E H ub p [.tensor t] ctx =
        .ok ([.tensor z], ctx) ∧ z.shape = [b0, s0, E] := by
  have hlt : (p.ln1 t).shape = [b0, s0, E] := by rw [hln t, ht]
  obtain ⟨u, hu, hus⟩ := attention_node_ok E H none none ub none
    p.sa_q p.sa_k p.sa_v p.sa_out p.K hdvd
    (p.ln1 t) (p.ln1 t) (p.ln1 t) ctx b0 s0 E b0 s0 E b0 s0 E hlt hlt hlt
  refine ⟨u, ?_, hus⟩
  simp only [CrossAttentionBlock.selfAttnBranch, SelfAttention.node, chainN, lift1,
    parallel3_id, hu]

theorem CrossAttentionBlock.crossAttnBranch_ok (E ctxE H : Nat) (ub : Bool)
    (p : CABParams) (hdvd : E % H = 0) (hln : PreservesShape p.ln2)
    (t tc : Tensor) (ctx : Ctx) (b0 s0 bc sc ec : Nat)
    (ht : t.shape = [b0, s0, E]) (hcross : ctx.cross = some tc)
    (htc : tc.shape = [bc, sc, ec]) :
    ∃ z, CrossAttentionBlock.crossAttnBranch E ctxE H ub p [.tensor t] ctx =
        .ok ([.tensor z], ctx) ∧ z.shape = [b0, s0, E] := by
  have hlt : (p.ln2 t).shape = [b0, s0, E] := by rw [hln t, ht]
  obtain ⟨u, hu, hus⟩ := attention_node_ok E H (some ctxE) (some ctxE) ub none
    p.ca_q p.ca_k p.ca_v p.ca_out p.K hdvd
    (p.ln2 t) tc tc ctx b0 s0 E bc sc ec bc sc ec hlt htc htc
  refine ⟨u, ?_, hus⟩
  simp only [CrossAttentionBlock.crossAttnBranch, chainN, lift1,
    parallel_id_ctx2 _ _ _ hcross, hu]

theorem CrossAttentionBlock.ffBranch_ok (E : Nat) (p : CABParams)
    (hln : PreservesShape p.ln3) (t : Tensor) (ctx : Ctx) (b0 s0 : Nat)
    (ht : t.shape = [b0, s0, E]) :
    ∃ z, CrossAttentionBlock.ffBranch E p [.tensor t] ctx =
        .ok ([.tensor z], ctx) ∧ z.shape = [b0, s0, E] := by
  have hlt : (p.ln3 t).shape = [b0, s0, E] := by rw [hln t, ht]
  refine ⟨linearFn ⟨4 * E, E, true⟩ p.ff2
    (gluFn p.act (linearFn ⟨E, 2 * (4 * E), true⟩ p.ff1 (p.ln3 t))), rfl, ?_⟩
  have h1 : (linearFn ⟨E, 2 * (4 * E), true⟩ p.ff1 (p.ln3 t)).shape =
      [b0, s0, 2 * (4 * E)] := by
    show (p.ln3 t).shape.dropLast ++ [2 * (4 * E)] = [b0, s0, 2 * (4 * E)]
    rw [hlt]
    rfl
  have h2 : (gluFn p.act (linearFn ⟨E, 2 * (4 * E), true⟩ p.ff1 (p.ln3 t))).shape =
      [b0, s0, 4 * E] := by
    rw [gluFn_shape, h1]
    show [b0, s0] ++ [(linearFn ⟨E, 2 * (4 * E), true⟩ p.ff1 (p.ln3 t)).lastDim / 2] = _
    have : (linearFn ⟨E, 2 * (4 * E), true⟩ p.ff1 (p.ln3 t)).lastDim = 2 * (4 * E) := by
      simp [Tensor.lastDim, h1]
    rw [this, Nat.mul_div_cancel_left (4 * E) (by norm_num)]
    rfl
  show (gluFn p.act (linearFn ⟨E, 2 * (4 * E), true⟩ p.ff1 (p.ln3 t))).shape.dropLast ++
      [E] = [b0, s0, E]
  rw [h2]
  rfl

theorem cab_node_ok (E ctxE H : Nat) (ub : Bool) (p : CABParams)
    (hdvd : E % H = 0) (hwf : p.WellFormed) (t tc : Tensor) (ctx : Ctx)
    (b0 s0 bc sc ec : Nat) (ht : t.shape = [b0, s0, E])
    (hcross : ctx.cross = some tc) (htc : tc.shape = [bc, sc, ec]) :
    ∃ u, CrossAttentionBlock.node E ctxE H ub p [.tensor t] ctx =
        .ok ([.tensor u], ctx) ∧ u.shape = [b0, s0, E] := by
  obtain ⟨hw1, hw2, hw3⟩ := hwf
  obtain ⟨z1, hz1, hz1s⟩ :=
    CrossAttentionBlock.selfAttnBranch_ok E H ub p hdvd hw1 t ctx b0 s0 ht
  have he1 := sum2_eval _ t z1 ctx ctx hz1 (by rw [ht, hz1s])
  obtain ⟨z2, hz2, hz2s⟩ :=
    CrossAttentionBlock.crossAttnBranch_ok E ctxE H ub p hdvd hw2 (addT t z1) tc ctx
      b0 s0 bc sc ec ht hcross htc
  have he2 := sum2_eval _ (addT t z1) z2 ctx ctx hz2 (by show t.shape = z2.shape; rw [ht, hz2s])
  obtain ⟨z3, hz3, hz3s⟩ :=
    CrossAttentionBlock.ffBranch_ok E p hw3 (addT (addT t z1) z2) ctx b0 s0 ht
  have he3 := sum2_eval _ (addT (addT t z1) z2) z3 ctx ctx hz3
    (by show t.shape = z3.shape; rw [ht, hz3s])
  refine ⟨addT (addT (addT t z1) z2) z3, ?_, ht⟩
  simp only [CrossAttentionBlock.node, chainN, he1, he2, he3]

theorem layers_ok (C ctxE H : Nat) (ub : Bool) (ps : Nat → CABParams)
    (hdvd : C % H = 0) (hwf : ∀ i, (ps i).WellFormed) (tc : Tensor)
    (bc sc ec : Nat) (htc : tc.shape = [bc, sc, ec]) :
    ∀ N (t : Tensor) (ctx : Ctx) (b0 s0 : Nat), t.shape = [b0, s0, C] →
      ctx.cross = some tc →
      ∃ u, chainN ((List.range N).map fun i => CrossAttentionBlock.node C ctxE H ub (ps i))
          [.tensor t] ctx = .ok ([.tensor u], ctx) ∧ u.shape = [b0, s0, C] := by
  intro N
  induction N with
  | zero =>
      intro t ctx b0 s0 ht _
      exact ⟨t, rfl, ht⟩
  | succ n ih =>
      intro t ctx b0 s0 ht hc
      obtain ⟨u, hu, hus⟩ := ih t ctx b0 s0 ht hc
      obtain ⟨w, hw, hws⟩ := cab_node_ok C ctxE H ub (ps n) hdvd (hwf n)
        u tc ctx b0 s0 bc sc ec hus hc htc
      refine ⟨w, ?_, hws⟩
      rw [List.range_succ, List.map_append, chainN_append]
      simp only [hu, List.map_cons, List.map_nil, chainN_cons, hw, chainN]

theorem CrossAttentionBlock2d.inBlock_ok (C : Nat) (ulp : Bool) (p : Block2dParams)
    (hgn : PreservesShape p.gn) (x : Tensor) (ctx : Ctx) (B Hh W : Nat)
    (hx : x.shape = [B, C, Hh, W]) :
    ∃ t, CrossAttentionBlock2d.inBlock C ulp p [.tensor x] ctx =
        .ok ([.tensor t],
          { ctx with flatten_sizes := ctx.flatten_sizes ++ [[Hh, W]]
                   , pushes := ctx.pushes + 1 }) ∧
      t.shape = [B, Hh * W, C] := by
  have h1 : (p.gn x).shape = [B, C, Hh, W] := by rw [hgn x, hx]
  cases ulp
  · have hcs : (conv1x1Fn C C p.proj_in (p.gn x)).shape = [B, C, Hh, W] := by
      show (p.gn x).shape.set 1 C = [B, C, Hh, W]
      rw [h1]
      rfl
    have hdropc : (conv1x1Fn C C p.proj_in (p.gn x)).shape.drop 2 = [Hh, W] := by
      rw [hcs]
      rfl
    have hfsc : (flattenFrom2 (conv1x1Fn C C p.proj_in (p.gn x))).shape = [B, C, Hh * W] := by
      show (conv1x1Fn C C p.proj_in (p.gn x)).shape.take 2 ++
        [listProd ((conv1x1Fn C C p.proj_in (p.gn x)).shape.drop 2)] = _
      rw [hcs]
      rw [show ([B, C, Hh, W] : List Nat).drop 2 = [Hh, W] from rfl, listProd_pair]
      rfl
    have he : CrossAttentionBlock2d.inBlock C false p [.tensor x] ctx =
        .ok ([.tensor ((flattenFrom2 (conv1x1Fn C C p.proj_in (p.gn x))).transpose12)],
          { ctx with
              flatten_sizes :=
                ctx.flatten_sizes ++ [(conv1x1Fn C C p.proj_in (p.gn x)).shape.drop 2]
            , pushes := ctx.pushes + 1 }) := rfl
    refine ⟨(flattenFrom2 (conv1x1Fn C C p.proj_in (p.gn x))).transpose12, ?_, ?_⟩
    · rw [he, hdropc]
    · exact Tensor.transpose12_shape _ hfsc
  · have hdrop : (p.gn x).shape.drop 2 = [Hh, W] := by
      rw [h1]
      rfl
    have hfs : (flattenFrom2 (p.gn x)).shape = [B, C, Hh * W] := by
      show (p.gn x).shape.take 2 ++ [listProd ((p.gn x).shape.drop 2)] = _
      rw [h1]
      rw [show ([B, C, Hh, W] : List Nat).drop 2 = [Hh, W] from rfl, listProd_pair]
      rfl
    have hts : ((flattenFrom2 (p.gn x)).transpose12).shape = [B, Hh * W, C] :=
      Tensor.transpose12_shape _ hfs
    have he : CrossAttentionBlock2d.inBlock C true p [.tensor x] ctx =
        .ok ([.tensor (linearFn ⟨C, C, true⟩ p.proj_in
            ((flattenFrom2 (p.gn x)).transpose12))],
          { ctx with flatten_sizes := ctx.flatten_sizes ++ [(p.gn x).shape.drop 2]
                   , pushes := ctx.pushes + 1 }) := rfl
    refine ⟨linearFn ⟨C, C, true⟩ p.proj_in ((flattenFrom2 (p.gn x)).transpose12), ?_, ?_⟩
    · rw [he, hdrop]
    · show ((flattenFrom2 (p.gn x)).transpose12).shape.dropLast ++ [C] = [B, Hh * W, C]
      rw [hts]
      rfl

theorem CrossAttentionBlock2d.outBlock_ok (C : Nat) (ulp : Bool) (p : Block2dParams)
    (t : Tensor) (ctx : Ctx) (B Hh W : Nat) (s0 : List (List Nat))
    (ht : t.shape = [B, Hh * W, C]) (hsz : ctx.flatten_sizes = s0 ++ [[Hh, W]]) :
    ∃ u, CrossAttentionBlock2d.outBlock C ulp p [.tensor t] ctx =
        .ok ([.tensor u], { ctx with flatten_sizes := s0, pops := ctx.pops + 1 }) ∧
      u.shape = [B, C, Hh, W] := by
  have hpop : ctx.flatten_sizes.getLast? = some [Hh, W] := by
    rw [hsz]
    exact List.getLast?_concat _
  have hdropl : ctx.flatten_sizes.dropLast = s0 := by
    rw [hsz]
    exact List.dropLast_concat
  cases ulp
  · have hu1 : t.transpose12.shape = [B, C, Hh * W] := Tensor.transpose12_shape _ ht
    have hpar : parallelN [idNode, popSizeNode] [.tensor t.transpose12] ctx =
        .ok ([.tensor t.transpose12, .size [Hh, W]],
          { ctx with flatten_sizes := s0, pops := ctx.pops + 1 }) := by
      simp only [parallelN, idNode, popSizeNode, hpop, hdropl, List.cons_append,
        List.nil_append]
    have hdim2 : t.transpose12.dim 2 = Hh * W := by simp [Tensor.dim, hu1]
    have hunf : ∀ c2 : Ctx, unflattenNode [.tensor t.transpose12, .size [Hh, W]] c2 =
        .ok ([.tensor ⟨t.transpose12.shape.take 2 ++ [Hh, W], t.transpose12.data⟩], c2) := by
      intro c2
      simp only [unflattenNode]
      rw [if_pos]
      rw [hdim2, listProd_pair]
    have hu3s : (⟨t.transpose12.shape.take 2 ++ [Hh, W], t.transpose12.data⟩ : Tensor).shape =
        [B, C, Hh, W] := by
      show t.transpose12.shape.take 2 ++ [Hh, W] = [B, C, Hh, W]
      rw [hu1]
      rfl
    refine ⟨conv1x1Fn C C p.proj_out
      ⟨t.transpose12.shape.take 2 ++ [Hh, W], t.transpose12.data⟩, ?_, ?_⟩
    · simp only [CrossAttentionBlock2d.outBlock, Bool.false_eq_true, if_false, chainN,
        transposeNode, lift1, hpar, hunf]
    · show (⟨t.transpose12.shape.take 2 ++ [Hh, W], t.transpose12.data⟩ : Tensor).shape.set 1 C =
        [B, C, Hh, W]
      rw [hu3s]
      rfl
  · have hl1 : (linearFn ⟨C, C, true⟩ p.proj_out t).shape = [B, Hh * W, C] := by
      show t.shape.dropLast ++ [C] = [B, Hh * W, C]
      rw [ht]
      rfl
    have hu2 : (linearFn ⟨C, C, true⟩ p.proj_out t).transpose12.shape = [B, C, Hh * W] :=
      Tensor.transpose12_shape _ hl1
    have hpar : parallelN [idNode, popSizeNode]
        [.tensor (linearFn ⟨C, C, true⟩ p.proj_out t).transpose12] ctx =
        .ok ([.tensor (linearFn ⟨C, C, true⟩ p.proj_out t).transpose12, .size [Hh, W]],
          { ctx with flatten_sizes := s0, pops := ctx.pops + 1 }) := by
      simp only [parallelN, idNode, popSizeNode, hpop, hdropl, List.cons_append,
        List.nil_append]
    have hdim2 : (linearFn ⟨C, C, true⟩ p.proj_out t).transpose12.dim 2 = Hh * W := by
      simp [Tensor.dim, hu2]
    have hunf : ∀ c2 : Ctx, unflattenNode
        [.tensor (linearFn ⟨C, C, true⟩ p.proj_out t).transpose12, .size [Hh, W]] c2 =
        .ok ([.tensor ⟨(linearFn ⟨C, C, true⟩ p.proj_out t).transpose12.shape.take 2 ++
          [Hh, W], (linearFn ⟨C, C, true⟩ p.proj_out t).transpose12.data⟩], c2) := by
      intro c2
      simp only [unflattenNode]
      rw [if_pos]
      rw [hdim2, listProd_pair]
    refine ⟨⟨(linearFn ⟨C, C, true⟩ p.proj_out t).transpose12.shape.take 2 ++ [Hh, W],
      (linearFn ⟨C, C, true⟩ p.proj_out t).transpose12.data⟩, ?_, ?_⟩
    · simp only [CrossAttentionBlock2d.outBlock, if_true, chainN, transposeNode, lift1,
        hpar, hunf]
    · show (linearFn ⟨C, C, true⟩ p.proj_out t).transpose12.shape.take 2 ++ [Hh, W] =
        [B, C, Hh, W]
      rw [hu2]
      rfl

theorem cab2d_node_ok (C ctxE H N : Nat) (ub ulp : Bool)
    (p : Block2dParams) (hdvd : C % H = 0) (hgn : PreservesShape p.gn)
    (hwf : ∀ i, (p.layers i).WellFormed) (x tc : Tensor) (ctx : Ctx)
    (B Hh W bc sc ec : Nat) (hx : x.shape = [B, C, Hh, W])
    (hcross : ctx.cross = some tc) (htc : tc.shape = [bc, sc, ec]) :
    ∃ y, CrossAttentionBlock2d.node C ctxE H N ub ulp p [.tensor x] ctx =
        .ok ([.tensor y], { ctx with pushes := ctx.pushes + 1, pops := ctx.pops + 1 }) ∧
      y.shape = [B, C, Hh, W] := by
  obtain ⟨t1, ht1, ht1s⟩ := CrossAttentionBlock2d.inBlock_ok C ulp p hgn x ctx B Hh W hx
  obtain ⟨t2, ht2, ht2s⟩ := layers_ok C ctxE H ub p.layers hdvd hwf tc bc sc ec htc N t1
    { ctx with flatten_sizes := ctx.flatten_sizes ++ [[Hh, W]], pushes := ctx.pushes + 1 }
    B (Hh * W) ht1s hcross
  obtain ⟨t3, ht3, ht3s⟩ := CrossAttentionBlock2d.outBlock_ok C ulp p t2
    { ctx with flatten_sizes := ctx.flatten_sizes ++ [[Hh, W]], pushes := ctx.pushes + 1 }
    B Hh W ctx.flatten_sizes ht2s rfl
  have hbranch : chainN
      [ CrossAttentionBlock2d.inBlock C ulp p
      , chainN ((List.range N).map fun i => CrossAttentionBlock.node C ctxE H ub (p.layers i))
      , CrossAttentionBlock2d.outBlock C ulp p ] [.tensor x] ctx =
      .ok ([.tensor t3], { ctx with pushes := ctx.pushes + 1, pops := ctx.pops + 1 }) := by
    simp only [chainN, ht1, ht2, ht3]
  have hsum := sum2_eval _ x t3 ctx _ hbranch (by rw [hx, ht3s])
  exact ⟨addT x t3, hsum, hx⟩

/-- C3 —
For every successfully constructed `CrossAttentionBlock2d` (either value
of `use_linear_projection`, any number of attention layers) and every
input of shape `(B, C, H, W)` matching its channel count, the forward
pass succeeds and its output has exactly the input's shape
`(B, C, H, W)`. -/
theorem spec_C3 (C ctxE H N : Nat) (ub ulp : Bool) (p : Block2dParams) (nd : Node)
    (hmk : CrossAttentionBlock2d.make C ctxE H N ub ulp p = some nd)
    (hgn : PreservesShape p.gn) (hwf : ∀ i, (p.layers i).WellFormed)
    (x tc : Tensor) (ctx : Ctx) (B Hh W bc sc ec : Nat)
    (hx : x.shape = [B, C, Hh, W]) (hcross : ctx.cross = some tc)
    (htc : tc.shape = [bc, sc, ec]) :
    ∃ y ctx2, nd [.tensor x] ctx = .ok ([.tensor y], ctx2) ∧
      y.shape = [B, C, Hh, W] := by
  simp only [CrossAttentionBlock2d.make] at hmk
  split at hmk
  case isTrue hguard =>
    injection hmk with hnd
    obtain ⟨y, hy, hys⟩ := cab2d_node_ok C ctxE H N ub ulp p hguard.2
      hgn hwf x tc ctx B Hh W bc sc ec hx hcross htc
    rw [← hnd]
    exact ⟨y, _, hy, hys⟩
  case isFalse =>
    exact absurd hmk (by simp)

/-- C4 —
During a forward pass of a successfully constructed
`CrossAttentionBlock2d` with the `"flatten"`/`"sizes"` stack seeded empty,
exactly one push and exactly one pop of the shape stack occur (witnessed
by the ghost counters), independent of `num_attention_layers`, and the
stack is empty again when the pass completes. -/
theorem spec_C4 (C ctxE H N : Nat) (ub ulp : Bool) (p : Block2dParams) (nd : Node)
    (hmk : CrossAttentionBlock2d.make C ctxE H N ub ulp p = some nd)
    (hgn : PreservesShape p.gn) (hwf : ∀ i, (p.layers i).WellFormed)
    (x tc : Tensor) (ctx : Ctx) (B Hh W bc sc ec : Nat)
    (hx : x.shape = [B, C, Hh, W]) (hcross : ctx.cross = some tc)
    (htc : tc.shape = [bc, sc, ec])
    (hseed : ctx.flatten_sizes = CrossAttentionBlock2d.initSizes) :
    ∃ y ctx2, nd [.tensor x] ctx = .ok ([.tensor y], ctx2) ∧
      ctx2.pushes = ctx.pushes + 1 ∧ ctx2.pops = ctx.pops + 1 ∧
      ctx2.flatten_sizes = [] := by
  simp only [CrossAttentionBlock2d.make] at hmk
  split at hmk
  case isTrue hguard =>
    injection hmk with hnd
    obtain ⟨y, hy, _⟩ := cab2d_node_ok C ctxE H N ub ulp p hguard.2
      hgn hwf x tc ctx B Hh W bc sc ec hx hcross htc
    rw [← hnd]
    exact ⟨y, _, hy, rfl, rfl, hseed⟩
  case isFalse =>
    exact absurd hmk (by simp)

/-- Zero linear parameters. -/
def LP0 : LinearParams := ⟨fun _ _ => 0, fun _ => 0⟩

/-- Concrete `CrossAttentionBlock` parameters: identity norms, zero
weights, identity activation, the trivial kernel. -/
def CABP0 : CABParams :=
  ⟨fun t => t, fun t => t, fun t => t, LP0, LP0, LP0, LP0, LP0, LP0, LP0, LP0,
    LP0, LP0, fun q => q, KC2⟩

/-- Concrete `CrossAttentionBlock2d` parameters. -/
def B2dP0 : Block2dParams := ⟨fun t => t, LP0, LP0, fun _ => CABP0⟩

/-- Concrete conditioning tensor of shape `(1, 1, 1)`. -/
def tcross0 : Tensor := ⟨[1, 1, 1], fun _ => 0⟩

/-- Concrete rank-3 input of shape `(1, 1, 1)`. -/
def x3 : Tensor := ⟨[1, 1, 1], fun _ => 0⟩

/-- Concrete rank-4 input of shape `(1, 1, 1, 1)`. -/
def x4 : Tensor := ⟨[1, 1, 1, 1], fun _ => 0⟩

/-- Concrete context store with the conditioning slot written and the
shape stack seeded empty. -/
def ctx0 : Ctx := ⟨[], some tcross0, none, none, 0, 0⟩

/-- Concrete context store whose conditioning slot was never written. -/
def ctxNone : Ctx := ⟨[], none, none, none, 0, 0⟩

/-- C3 witness at `channels = 1`, one attention layer, convolution
variant. -/
theorem spec_C3_witness :
    ∃ y ctx2, CrossAttentionBlock2d.node 1 1 1 1 true false B2dP0 [.tensor x4] ctx0 =
        .ok ([.tensor y], ctx2) ∧ y.shape = [1, 1, 1, 1] :=
  spec_C3 1 1 1 1 true false B2dP0 _ rfl (fun _ => rfl)
    (fun _ => ⟨fun _ => rfl, fun _ => rfl, fun _ => rfl⟩)
    x4 tcross0 ctx0 1 1 1 1 1 1 rfl rfl rfl

/-- C4 witness at `channels = 1`, three attention layers, linear
variant: one push, one pop, stack empty again. -/
theorem spec_C4_witness :
    ∃ y ctx2, CrossAttentionBlock2d.node 1 1 1 3 true true B2dP0 [.tensor x4] ctx0 =
        .ok ([.tensor y], ctx2) ∧ ctx2.pushes = ctx0.pushes + 1 ∧
      ctx2.pops = ctx0.pops + 1 ∧ ctx2.flatten_sizes = [] :=
  spec_C4 1 1 1 3 true true B2dP0 _ rfl (fun _ => rfl)
    (fun _ => ⟨fun _ => rfl, fun _ => rfl, fun _ => rfl⟩)
    x4 tcross0 ctx0 1 1 1 1 1 1 rfl rfl rfl rfl

/-- C8 witness: the conditioning branch fails with a context miss on an
unwritten slot. -/
theorem spec_C8_witness :
    CrossAttentionBlock.crossAttnBranch 1 1 1 true CABP0 [.tensor x3] ctxNone =
      .error .contextMiss :=
  spec_C8 1 1 1 true CABP0 x3 ctxNone rfl

/-- C5 witness: with zero weights and the trivial kernel every branch
produces the zero tensor, and the block returns its input unchanged. -/
theorem spec_C5_witness :
    ∃ y, CrossAttentionBlock.node 1 1 1 true CABP0 [.tensor x3] ctx0 =
        .ok ([.tensor y], ctx0) ∧ y.shape = x3.shape ∧ ∀ i, y.data i = x3.data i := by
  refine spec_C5 1 1 1 true CABP0 x3 _ _ _ ctx0 ctx0 ctx0 ctx0 rfl rfl ?_ rfl rfl ?_
    rfl rfl ?_
  all_goals
    intro i
    simp [linearFn, LP0, CABP0, Attention.cfg, addT]
